import Mathlib

/-!
# A shallow embedding of `geocontext` (src/geocontext.ipynb)

The notebook defines a single function `geocontext(points, popLocations,
groups, populations, proportions, kValues, ...)` over pandas DataFrames.
This file embeds that function and its parts:

* a DataFrame row is a `Row`: an association list of column names to
  rational values (pandas numeric columns; exact arithmetic stands in for
  floating point);
* `truncDist` is `np.sqrt(dn**2 + de**2).astype('int')`: the Euclidean
  distance truncated to an integer (for a nonnegative radicand the
  truncation is the floor and `⌊√q⌋ = ⌊√⌊q⌋⌋`, so the embedding takes the
  structural integer square root `isqrt` — proved equal to `Nat.sqrt` —
  of the floor of the exact rational square);
* `sortRows` is `popLocations.sort_values('Distance', inplace=True)`
  (modelled as an insertion sort by the Distance column; the numeric
  outputs of the program do not depend on the order chosen among rows
  with equal distance);
* `walkFrom`/`solveFrom` are the cumulative-population threshold walk
  (`while population < kValue: population += ...iloc[index]; index += 1`
  followed by `radius = ...iloc[index - 1]`), with `iloc` reproducing
  pandas positional indexing including Python's negative-index wrap and
  the `IndexError` (as `none`) on an out-of-range position;
* `selectRows` is `popLocations[popLocations['Distance'] <= radius]`;
* `npAverage` is `np.average(values, weights=...)`, `none` when the
  weights sum to zero (numpy raises `ZeroDivisionError` there);
* `validate` is the type-checking prologue of `geocontext`
  (`TypeError`/`IndexError` as `none`), over `PyArg`, a model of the
  dynamically typed arguments;
* `geocontext` composes the above exactly as the notebook does:
  validation, `kValues.sort()`, the initial `popLocations['Distance'] = 0`
  column assignment, the per-point loop (distances, in-place sort, the
  per-measure walk with the `groupIndex` counter that the notebook
  advances once per *population* column, aggregation over the
  distance-predicate selection), `pd.concat`, and the finishing pass
  deriving `mean_<group>_k<k>` columns for proportion-mode groups.
  Any Python exception (KeyError, IndexError, TypeError,
  ZeroDivisionError) aborts the run; the embedding returns `none` there.
  Result-dictionary keys are modelled structurally by `RKey` instead of
  formatted strings. The function returns the list of result rows
  together with the final state of the (mutated) `popLocations` table.
-/

/-- One DataFrame row: column name ↦ rational value. -/
structure Row where
  cols : List (String × ℚ)
deriving DecidableEq, Repr

/-- Column access `row[c]`; `none` models a pandas `KeyError`. -/
def Row.col (r : Row) (c : String) : Option ℚ :=
  r.cols.lookup c

/-- Assign `l[c] = v` in an association list: replace the first binding of
`c` if present, otherwise append the new column at the end (pandas column
assignment). -/
def upsert : List (String × ℚ) → String → ℚ → List (String × ℚ)
  | [], c, v => [(c, v)]
  | (k, w) :: rest, c, v =>
      if k = c then (c, v) :: rest else (k, w) :: upsert rest c v

/-- Column assignment `row[c] = v`. -/
def Row.setCol (r : Row) (c : String) (v : ℚ) : Row :=
  ⟨upsert r.cols c v⟩

/-- The per-point scratch distance of a row: its `Distance` column (the
notebook guarantees the column exists before any read of it). -/
def rowDist (r : Row) : ℚ :=
  (r.col "Distance").getD 0

/-- Largest `j ≤ m` with `j * j ≤ n` (a structural integer square root;
`isqrt_eq_sqrt` below certifies it agrees with `Nat.sqrt`). -/
def isqrtAux (n : Nat) : Nat → Nat
  | 0 => 0
  | m + 1 => if (m + 1) * (m + 1) ≤ n then m + 1 else isqrtAux n m

/-- The integer square root `⌊√n⌋`. -/
def isqrt (n : Nat) : Nat := isqrtAux n n

/-- Models `np.sqrt(dn**2 + de**2).astype('int')`: Euclidean distance truncated
toward zero.  The radicand is nonnegative, so truncation is the floor, and
`⌊√q⌋ = ⌊√⌊q⌋⌋` for rational `q ≥ 0`. -/
def truncDist (dn de : ℚ) : ℚ :=
  (isqrt (dn ^ 2 + de ^ 2).floor.toNat : ℚ)

/-- Write the `Distance` column of every reference row for one query point
at `(pn, pe)`; `cN`/`cE` name the reference coordinate columns.  A missing
coordinate column is a `KeyError` (`none`). -/
def annotate (pn pe : ℚ) (cN cE : String) : List Row → Option (List Row)
  | [] => some []
  | r :: rs =>
      match r.col cN, r.col cE with
      | some xn, some xe =>
          (annotate pn pe cN cE rs).map
            (fun rest => r.setCol "Distance" (truncDist (pn - xn) (pe - xe)) :: rest)
      | _, _ => none

/-- Insert a row into a list kept ascending by `rowDist`. -/
def insertRow (x : Row) : List Row → List Row
  | [] => [x]
  | y :: ys => if rowDist x ≤ rowDist y then x :: y :: ys else y :: insertRow x ys

/-- Models `popLocations.sort_values('Distance', inplace=True)`: sort the rows by
their `Distance` column. -/
def sortRows : List Row → List Row
  | [] => []
  | x :: xs => insertRow x (sortRows xs)

/-- Pandas positional indexing `.iloc[i]` on a column: a negative `i`
counts from the end (Python indexing); out of range is an `IndexError`
(`none`). -/
def iloc (xs : List ℚ) (i : Int) : Option ℚ :=
  if 0 ≤ i then xs.get? i.toNat
  else if 0 ≤ i + xs.length then xs.get? (i + xs.length).toNat else none

/-- The inner `while population < kValue` loop of `geocontext`, walking the
suffix `rest` of the population column (in ascending-distance order) with
the global pointer `idx` and accumulator `acc`.  Returns the pointer,
remaining suffix and accumulator after the loop; `none` is the
`IndexError` raised when the pointer runs past the end. -/
def walkFrom (k : ℚ) : List ℚ → Nat → ℚ → Option (Nat × List ℚ × ℚ)
  | rest, idx, acc =>
    if acc < k then
      match rest with
      | [] => none
      | p :: rest' => walkFrom k rest' (idx + 1) (acc + p)
    else some (idx, rest, acc)

/-- The radius-solving loop over the ascending k-values: for each `k`, run
the threshold walk, then record `radius = Distance.iloc[index - 1]`.  The
pointer and accumulator persist across successive k-values. -/
def solveFrom (dists : List ℚ) : List Int → List ℚ → Nat → ℚ → Option (List ℚ)
  | [], _, _, _ => some []
  | k :: ks, rest, idx, acc =>
      match walkFrom (k : ℚ) rest idx acc with
      | none => none
      | some (idx', rest', acc') =>
          match iloc dists ((idx' : Int) - 1) with
          | none => none
          | some r =>
              match solveFrom dists ks rest' idx' acc' with
              | none => none
              | some rs => some (r :: rs)

/-- Models `popLocations[popLocations['Distance'] <= radius]`: the selection is
the set of rows whose distance is at most the solved radius. -/
def selectRows (st : List Row) (radius : ℚ) : List Row :=
  st.filter fun r => rowDist r ≤ radius

/-- Extract a whole column from a list of rows; `none` models the
`KeyError` when the column is missing. -/
def lookupAll (c : String) : List Row → Option (List ℚ)
  | [] => some []
  | r :: rs =>
      match r.col c with
      | none => none
      | some v => (lookupAll c rs).map (v :: ·)

/-- Models `selection[c].sum()`. -/
def colSum (c : String) (rows : List Row) : Option ℚ :=
  (lookupAll c rows).map List.sum

/-- Models `np.average(vals, weights=ws)` = `(Σ vᵢ·wᵢ) / (Σ wᵢ)`; numpy raises
`ZeroDivisionError` when the weights sum to zero. -/
def npAverage (vals ws : List ℚ) : Option ℚ :=
  if ws.sum = 0 then none
  else some ((List.zipWith (fun v w => v * w) vals ws).sum / ws.sum)

/-- The weighted-mode aggregation of one group column `g` with weight
column `p` over a selection: `average = np.average(sel[g], weights=sel[p])`
and `variance = np.average((sel[g] - average)**2, weights=sel[p])`.
Returns `(mean, variance)`; the notebook stores `math.sqrt(variance)` as
the standard deviation. -/
def weightedEntry (sel : List Row) (g p : String) : Option (ℚ × ℚ) :=
  match lookupAll g sel with
  | none => none
  | some vs =>
      match lookupAll p sel with
      | none => none
      | some ws =>
          match npAverage vs ws with
          | none => none
          | some avg =>
              match npAverage (vs.map fun x => (x - avg) ^ 2) ws with
              | none => none
              | some v => some (avg, v)

/-- A value stored in a result row: a rational, or the square root of a
rational (`math.sqrt(variance)`), kept symbolically to stay decidable. -/
inductive RVal where
  | q (x : ℚ)
  | sqrtOf (x : ℚ)
deriving DecidableEq, Repr

/-- The interpretation of a stored value as a real number. -/
noncomputable def RVal.toReal : RVal → ℝ
  | .q x => (x : ℝ)
  | .sqrtOf x => Real.sqrt (x : ℝ)

/-- A result-dictionary key, modelling the notebook's formatted column
names: `radius[_g]_k{k}`, `group_g_k{k}`, `mean_g_k{k}`, `std_g_k{k}`,
`total[_g]_k{k}` (the `Option String` is `none` for the single-population
keys that carry no group name). -/
inductive RKey where
  | radius (g : Option String) (k : Int)
  | group (g : String) (k : Int)
  | mean (g : String) (k : Int)
  | std (g : String) (k : Int)
  | total (g : Option String) (k : Int)
deriving DecidableEq, Repr

/-- A model of the dynamically typed configuration arguments of
`geocontext`: a bare string, a list of strings, a list of integers, or any
other (non-list) Python value. -/
inductive PyArg where
  | name (s : String)
  | strList (xs : List String)
  | intList (xs : List Int)
  | otherVal
deriving DecidableEq, Repr

/-- Models `type(arg) == list`. -/
def PyArg.isPyList : PyArg → Bool
  | .strList _ => true
  | .intList _ => true
  | _ => false

/-- Models `len(arg)` for list arguments (unused on non-lists). -/
def PyArg.pyLen : PyArg → Nat
  | .strList xs => xs.length
  | .intList xs => xs.length
  | _ => 0

/-- The eager type checks at the top of `geocontext`, before any per-point
work: `groups` must be a list; `populations` must be a list (a singleton
list selects single-population mode, any other length selects multi mode
and must match `groups` in length); `kValues` must be a list.  `none` is
the raised `TypeError`/`IndexError`; `some multi` carries the mode. -/
def validate (groups populations kValues : PyArg) : Option Bool :=
  if ¬ groups.isPyList then none
  else if populations.isPyList then
    if populations.pyLen = 1 then
      if ¬ kValues.isPyList then none else some false
    else if groups.pyLen ≠ populations.pyLen then none
    else if ¬ kValues.isPyList then none else some true
  else none

/-- The string payload of a list argument (`none` when the later by-name
column lookups could never succeed). -/
def argStrNames : PyArg → Option (List String)
  | .strList xs => some xs
  | _ => none

/-- The integer payload of a list argument. -/
def argIntVals : PyArg → Option (List Int)
  | .intList xs => some xs
  | _ => none

/-- Insert into an ascending list of integers. -/
def insertInt (x : Int) : List Int → List Int
  | [] => [x]
  | y :: ys => if x ≤ y then x :: y :: ys else y :: insertInt x ys

/-- Models `kValues.sort()`: ascending sort of the k-values. -/
def sortInt : List Int → List Int
  | [] => []
  | x :: xs => insertInt x (sortInt xs)

/-- The statistic entries of one group for one k-value: the group sum in
proportion mode, the weighted mean and standard deviation otherwise. -/
def groupStat (sel : List Row) (g p : String) (flag : Bool) (k : Int) :
    Option (List (RKey × RVal)) :=
  if flag then
    match colSum g sel with
    | none => none
    | some s => some [(RKey.group g k, RVal.q s)]
  else
    match weightedEntry sel g p with
    | none => none
    | some mv => some [(RKey.mean g k, RVal.q mv.1), (RKey.std g k, RVal.sqrtOf mv.2)]

/-- The single-population aggregation loop `for group in groups:` for one
k-value.  Faithfully to the notebook, the proportion flag is read at
`proportions[gi]` where `gi` is the index of the *population* column
(stuck at `0` in single mode), not of the group. -/
def aggGroups (sel : List Row) (p : String) (proportions : List Bool)
    (gi : Nat) (k : Int) : List String → Option (List (RKey × RVal))
  | [] => some []
  | g :: gs =>
      match proportions.get? gi with
      | none => none
      | some flag =>
          match groupStat sel g p flag k with
          | none => none
          | some here =>
              match aggGroups sel p proportions gi k gs with
              | none => none
              | some rest => some (here ++ rest)

/-- The `for k_Index in range(len(kValues))` selection-and-aggregation
loop of one population column: per k-value, select the rows within the
solved radius, store the group statistic(s), then the selection's total
population. -/
def perK (multi : Bool) (gs : List String) (proportions : List Bool)
    (st2 : List Row) (p : String) (gi : Nat) :
    List (Int × ℚ) → Option (List (RKey × RVal))
  | [] => some []
  | (k, rad) :: rest =>
      let sel := selectRows st2 rad
      match (if multi then
               match proportions.get? gi with
               | none => none
               | some flag =>
                   match gs.get? gi with
                   | none => none
                   | some g => groupStat sel g p flag k
             else aggGroups sel p proportions gi k gs) with
      | none => none
      | some groupEntries =>
          match (if multi then
                   match gs.get? gi with
                   | none => none
                   | some g =>
                       match colSum p sel with
                       | none => none
                       | some t => some [(RKey.total (some g) k, RVal.q t)]
                 else
                   match colSum p sel with
                   | none => none
                   | some t => some [(RKey.total none k, RVal.q t)]) with
          | none => none
          | some totalEntries =>
              match perK multi gs proportions st2 p gi rest with
              | none => none
              | some restEntries => some (groupEntries ++ totalEntries ++ restEntries)

/-- The `for pop_Column in populations` loop for one point: per population
column, run the threshold walk over all k-values (recording the radii),
then aggregate per k-value; `gi` is the notebook's `groupIndex`, advanced
once per population column. -/
def measuresLoop (multi : Bool) (gs : List String) (proportions : List Bool)
    (st2 : List Row) (dists : List ℚ) (ksorted : List Int) :
    Nat → List String → Option (List (RKey × RVal))
  | _, [] => some []
  | gi, p :: ps =>
      match lookupAll p st2 with
      | none => none
      | some pops =>
          match solveFrom dists ksorted pops 0 0 with
          | none => none
          | some radii =>
              match (if multi then
                       match gs.get? gi with
                       | none => none
                       | some g =>
                           some (List.zipWith
                             (fun k r => (RKey.radius (some g) k, RVal.q r)) ksorted radii)
                     else
                       some (List.zipWith
                         (fun k r => (RKey.radius none k, RVal.q r)) ksorted radii)) with
              | none => none
              | some radiusEntries =>
                  match perK multi gs proportions st2 p gi (List.zip ksorted radii) with
                  | none => none
                  | some kEntries =>
                      match measuresLoop multi gs proportions st2 dists ksorted (gi + 1) ps with
                      | none => none
                      | some restEntries =>
                          some (radiusEntries ++ kEntries ++ restEntries)

/-- One iteration of the `for pointIndex, point in points.iterrows()` loop:
write the distances into the shared table, sort it in place, then build
the point's result row.  Returns the result row and the table state left
behind. -/
def pointStep (multi : Bool) (gs ps : List String) (proportions : List Bool)
    (ksorted : List Int) (pN pE cN cE : String) (st : List Row) (pt : Row) :
    Option (List (RKey × RVal) × List Row) :=
  match pt.col pN with
  | none => none
  | some x =>
      match pt.col pE with
      | none => none
      | some y =>
          match annotate x y cN cE st with
          | none => none
          | some st1 =>
              let st2 := sortRows st1
              match measuresLoop multi gs proportions st2 (st2.map rowDist) ksorted 0 ps with
              | none => none
              | some row => some (row, st2)

/-- The whole per-point loop, threading the shared `popLocations` state. -/
def runPoints (multi : Bool) (gs ps : List String) (proportions : List Bool)
    (ksorted : List Int) (pN pE cN cE : String) :
    List Row → List Row → Option (List (List (RKey × RVal)) × List Row)
  | st, [] => some ([], st)
  | st, pt :: pts =>
      match pointStep multi gs ps proportions ksorted pN pE cN cE st pt with
      | none => none
      | some (row, st') =>
          match runPoints multi gs ps proportions ksorted pN pE cN cE st' pts with
          | none => none
          | some (rows, st'') => some (row :: rows, st'')

/-- Dictionary lookup in a result row (pandas column access on the
result table); `none` models the `KeyError` on a missing column. -/
def rkLookup : List (RKey × RVal) → RKey → Option RVal
  | [], _ => none
  | (k, v) :: rest, key => if k = key then some v else rkLookup rest key

/-- The inner `for group in groups` loop of the finishing pass for one
k-value: for every group whose own flag is true, derive
`mean_g_k = group_g_k / total[_g]_k` from the stored columns.  A missing
stored column is a `KeyError` (`none`). -/
def finishGroups (multi : Bool) (proportions : List Bool) (k : Int)
    (row : List (RKey × RVal)) : Nat → List String → Option (List (RKey × RVal))
  | _, [] => some []
  | gi, g :: gs =>
      match proportions.get? gi with
      | none => none
      | some flag =>
          match (if flag then
                   match rkLookup row (RKey.group g k),
                         rkLookup row (RKey.total (if multi then some g else none) k) with
                   | some (RVal.q a), some (RVal.q t) =>
                       some [(RKey.mean g k, RVal.q (a / t))]
                   | _, _ => none
                 else some []) with
          | none => none
          | some here =>
              match finishGroups multi proportions k row (gi + 1) gs with
              | none => none
              | some rest => some (here ++ rest)

/-- The finishing pass over one result row: `for kValue in kValues`, then
per group, appending the derived proportion columns. -/
def finishRow (multi : Bool) (gs : List String) (proportions : List Bool)
    (row : List (RKey × RVal)) : List Int → Option (List (RKey × RVal))
  | [] => some []
  | k :: ks =>
      match finishGroups multi proportions k row 0 gs with
      | none => none
      | some here =>
          match finishRow multi gs proportions row ks with
          | none => none
          | some rest => some (here ++ rest)

/-- The finishing pass over the whole result table. -/
def finishAll (multi : Bool) (gs : List String) (proportions : List Bool)
    (ksorted : List Int) : List (List (RKey × RVal)) → Option (List (List (RKey × RVal)))
  | [] => some []
  | row :: rows =>
      match finishRow multi gs proportions row ksorted with
      | none => none
      | some here =>
          match finishAll multi gs proportions ksorted rows with
          | none => none
          | some rest => some ((row ++ here) :: rest)

/-- The embedded `geocontext` function.  Returns the per-point result rows
(the columns added to `points`) together with the final state of the
shared `popLocations` table, or `none` when the Python code raises.  The
`results.isEmpty` guard models `pd.DataFrame([]).set_index('pointIndex')`
raising a `KeyError` when `points` is empty. -/
def geocontext (points popLocations : List Row)
    (groups populations kValues : PyArg) (proportions : List Bool)
    (pN pE cN cE : String) :
    Option (List (List (RKey × RVal)) × List Row) :=
  match validate groups populations kValues with
  | none => none
  | some multi =>
      match argStrNames groups with
      | none => none
      | some gs =>
          match argStrNames populations with
          | none => none
          | some ps =>
              match argIntVals kValues with
              | none => none
              | some ks =>
                  let ksorted := sortInt ks
                  let st0 := popLocations.map (fun r => r.setCol "Distance" 0)
                  match runPoints multi gs ps proportions ksorted pN pE cN cE st0 points with
                  | none => none
                  | some (results, stFinal) =>
                      if results.isEmpty then none
                      else
                        match finishAll multi gs proportions ksorted results with
                        | none => none
                        | some finished => some (finished, stFinal)

/-! ## Helper lemmas -/

theorem lookup_upsert_self (l : List (String × ℚ)) (c : String) (v : ℚ) :
    (upsert l c v).lookup c = some v := by
  induction l with
  | nil => simp [upsert, List.lookup]
  | cons kv rest ih =>
    obtain ⟨k, w⟩ := kv
    by_cases h : k = c
    · subst h; simp [upsert, List.lookup]
    · have hb : (c == k) = false := beq_eq_false_iff_ne.mpr (Ne.symm h)
      simp [upsert, h, List.lookup, hb, ih]

theorem lookup_upsert_ne (l : List (String × ℚ)) (c c' : String) (v : ℚ)
    (h : c' ≠ c) : (upsert l c v).lookup c' = l.lookup c' := by
  have hb : (c' == c) = false := beq_eq_false_iff_ne.mpr h
  induction l with
  | nil => simp [upsert, List.lookup, hb]
  | cons kv rest ih =>
    obtain ⟨k, w⟩ := kv
    by_cases hk : k = c
    · subst hk; simp [upsert, List.lookup, hb]
    · simp only [upsert, hk, if_false, List.lookup, ih]

theorem setCol_col_self (r : Row) (c : String) (v : ℚ) :
    (r.setCol c v).col c = some v :=
  lookup_upsert_self r.cols c v

theorem setCol_col_ne (r : Row) (c c' : String) (v : ℚ) (h : c' ≠ c) :
    (r.setCol c v).col c' = r.col c' :=
  lookup_upsert_ne r.cols c c' v h

theorem insertRow_perm (x : Row) (l : List Row) :
    (insertRow x l).Perm (x :: l) := by
  induction l with
  | nil => simp [insertRow]
  | cons y ys ih =>
    unfold insertRow
    by_cases h : rowDist x ≤ rowDist y
    · simp [h]
    · simp only [h, if_false]
      exact (List.Perm.cons y ih).trans (List.Perm.swap x y ys)

theorem sortRows_perm (l : List Row) : (sortRows l).Perm l := by
  induction l with
  | nil => simp [sortRows]
  | cons x xs ih =>
    exact (insertRow_perm x (sortRows xs)).trans (List.Perm.cons x ih)

theorem lookupAll_eq_map (c : String) (rows : List Row) (vs : List ℚ)
    (h : lookupAll c rows = some vs) :
    vs = rows.map (fun r => (r.col c).getD 0) := by
  induction rows generalizing vs with
  | nil => simp [lookupAll] at h; simp [h.symm]
  | cons r rs ih =>
    unfold lookupAll at h
    cases hr : r.col c with
    | none => rw [hr] at h; exact absurd h (by simp)
    | some v =>
      rw [hr] at h
      cases hrest : lookupAll c rs with
      | none => rw [hrest] at h; exact absurd h (by simp)
      | some ws =>
        rw [hrest] at h
        simp only [Option.map_some', Option.some.injEq] at h
        subst h
        simp [hr, ih ws hrest]

theorem walkFrom_spec (k : ℚ) (rest : List ℚ) :
    ∀ (idx : Nat) (acc : ℚ) (idx' : Nat) (rest' : List ℚ) (acc' : ℚ),
      walkFrom k rest idx acc = some (idx', rest', acc') →
      k ≤ acc' ∧ acc' + rest'.sum = acc + rest.sum ∧ (∀ x ∈ rest', x ∈ rest) ∧
        idx ≤ idx' ∧ (acc < k → idx < idx') := by
  induction rest with
  | nil =>
    intro idx acc idx' rest' acc' h
    unfold walkFrom at h
    by_cases hlt : acc < k
    · simp [hlt] at h
    · simp only [hlt, if_false, Option.some.injEq, Prod.mk.injEq] at h
      obtain ⟨h1, h2, h3⟩ := h
      subst h1; subst h2; subst h3
      exact ⟨le_of_not_lt hlt, rfl, fun x hx => hx, le_refl _, fun hc => absurd hc hlt⟩
  | cons p ps ih =>
    intro idx acc idx' rest' acc' h
    unfold walkFrom at h
    by_cases hlt : acc < k
    · simp only [hlt, if_true] at h
      obtain ⟨hk, hsum, hmem, hidx, -⟩ := ih (idx + 1) (acc + p) idx' rest' acc' h
      refine ⟨hk, ?_, fun x hx => List.mem_cons_of_mem _ (hmem x hx), by omega,
        fun _ => by omega⟩
      rw [hsum, List.sum_cons]; ring
    · simp only [hlt, if_false, Option.some.injEq, Prod.mk.injEq] at h
      obtain ⟨h1, h2, h3⟩ := h
      subst h1; subst h2; subst h3
      exact ⟨le_of_not_lt hlt, rfl, fun x hx => hx, le_refl _, fun hc => absurd hc hlt⟩

theorem iloc_nonneg_eq (xs : List ℚ) (i : Int) (h : 0 ≤ i) :
    iloc xs i = xs.get? i.toNat := by
  simp [iloc, h]

theorem iloc_neg_one (xs : List ℚ) (h : xs ≠ []) : iloc xs (-1) = xs.getLast? := by
  have hlen : 1 ≤ xs.length := List.length_pos.mpr h
  unfold iloc
  rw [if_neg (by norm_num), if_pos (by omega)]
  have ht : ((-1 : Int) + xs.length).toNat = xs.length - 1 := by omega
  rw [ht, List.getLast?_eq_getElem?, List.get?_eq_getElem?]

theorem solveFrom_le (dists : List ℚ) (ks : List Int) :
    ∀ (rest : List ℚ) (idx : Nat) (acc : ℚ) (rs : List ℚ),
      (∀ x ∈ rest, 0 ≤ x) →
      solveFrom dists ks rest idx acc = some rs →
      ∀ k ∈ ks, (k : ℚ) ≤ acc + rest.sum := by
  induction ks with
  | nil => intro rest idx acc rs _ _ k hk; simp at hk
  | cons k0 ks' ih =>
    intro rest idx acc rs hnn h k hk
    unfold solveFrom at h
    cases hw : walkFrom (k0 : ℚ) rest idx acc with
    | none => rw [hw] at h; dsimp only at h; cases h
    | some t =>
      obtain ⟨idx', rest', acc'⟩ := t
      rw [hw] at h; dsimp only at h
      obtain ⟨hk0, hsum, hmem, -, -⟩ := walkFrom_spec _ _ _ _ _ _ _ hw
      have hnn' : ∀ x ∈ rest', 0 ≤ x := fun x hx => hnn x (hmem x hx)
      rcases List.mem_cons.mp hk with rfl | hk'
      · calc (k : ℚ) ≤ acc' := hk0
          _ ≤ acc' + rest'.sum := le_add_of_nonneg_right (List.sum_nonneg hnn')
          _ = acc + rest.sum := hsum
      · cases hil : iloc dists ((idx' : Int) - 1) with
        | none => rw [hil] at h; dsimp only at h; cases h
        | some r =>
          rw [hil] at h; dsimp only at h
          cases hrec : solveFrom dists ks' rest' idx' acc' with
          | none => rw [hrec] at h; dsimp only at h; cases h
          | some rs' =>
            have hle := ih rest' idx' acc' rs' hnn' hrec k hk'
            rw [hsum] at hle
            exact hle

theorem solveFrom_pairwise (dists : List ℚ) (hd : List.Sorted (· ≤ ·) dists)
    (ks : List Int) :
    ∀ (rest : List ℚ) (idx : Nat) (acc : ℚ) (rs : List ℚ),
      (∀ k ∈ ks, 1 ≤ k) → ((idx = 0 ∧ acc = 0) ∨ 1 ≤ idx) →
      solveFrom dists ks rest idx acc = some rs →
      rs.Pairwise (· ≤ ·) ∧
        ∀ r ∈ rs, ∃ m : Nat, idx ≤ m ∧ 1 ≤ m ∧
          ∃ hm : m - 1 < dists.length, r = dists.get ⟨m - 1, hm⟩ := by
  induction ks with
  | nil =>
    intro rest idx acc rs _ _ h
    unfold solveFrom at h
    simp only [Option.some.injEq] at h
    subst h
    exact ⟨List.Pairwise.nil, by simp⟩
  | cons k0 ks' ih =>
    intro rest idx acc rs hks hinv h
    unfold solveFrom at h
    cases hw : walkFrom (k0 : ℚ) rest idx acc with
    | none => rw [hw] at h; dsimp only at h; cases h
    | some t =>
      obtain ⟨idx', rest', acc'⟩ := t
      rw [hw] at h; dsimp only at h
      cases hil : iloc dists ((idx' : Int) - 1) with
      | none => rw [hil] at h; dsimp only at h; cases h
      | some r =>
        rw [hil] at h; dsimp only at h
        cases hrec : solveFrom dists ks' rest' idx' acc' with
        | none => rw [hrec] at h; dsimp only at h; cases h
        | some rs' =>
          rw [hrec] at h; dsimp only at h
          simp only [Option.some.injEq] at h
          subst h
          obtain ⟨-, -, -, hidxle, hstrict⟩ := walkFrom_spec _ _ _ _ _ _ _ hw
          have hidx1 : 1 ≤ idx' := by
            rcases hinv with ⟨h0, ha⟩ | h1
            · subst h0; subst ha
              have hk1 : (1 : Int) ≤ k0 := hks k0 (List.mem_cons_self _ _)
              have hpos : (0 : ℚ) < (k0 : ℚ) := by exact_mod_cast hk1
              exact hstrict hpos
            · omega
          have hge : (0 : Int) ≤ (idx' : Int) - 1 := by omega
          rw [iloc_nonneg_eq dists _ hge] at hil
          have htn : ((idx' : Int) - 1).toNat = idx' - 1 := by omega
      /- hil : dists.get? (idx' - 1) = some r -/
          rw [htn] at hil
          obtain ⟨hm0, hr0⟩ := List.get?_eq_some.mp hil
          have hks' : ∀ k ∈ ks', 1 ≤ k := fun k hk => hks k (List.mem_cons_of_mem _ hk)
          obtain ⟨hpw', hbound'⟩ := ih rest' idx' acc' rs' hks' (Or.inr hidx1) hrec
          constructor
          · refine List.Pairwise.cons ?_ hpw'
            intro r' hr'
            obtain ⟨m, hm1, hm2, hm3, hr'eq⟩ := hbound' r' hr'
            rw [← hr0, hr'eq]
            exact List.Sorted.rel_get_of_le hd (by simp [Fin.le_def]; omega)
          · intro r' hr'
            rcases List.mem_cons.mp hr' with rfl | hmem'
            · exact ⟨idx', hidxle, hidx1, hm0, hr0.symm⟩
            · obtain ⟨m, hm1, hm2, hm3, hr'eq⟩ := hbound' r' hmem'
              exact ⟨m, le_trans hidxle hm1, hm2, hm3, hr'eq⟩

theorem annotate_mem (pn pe : ℚ) (cN cE : String) :
    ∀ (st st1 : List Row), annotate pn pe cN cE st = some st1 →
      ∀ r' ∈ st1, ∃ r ∈ st, ∃ v, r' = r.setCol "Distance" v := by
  intro st
  induction st with
  | nil =>
    intro st1 h r' hr'
    simp only [annotate, Option.some.injEq] at h
    subst h; simp at hr'
  | cons r0 rs ih =>
    intro st1 h r' hr'
    unfold annotate at h
    cases h1 : r0.col cN with
    | none =>
      rw [h1] at h
      cases h2 : r0.col cE with
      | none => rw [h2] at h; dsimp only at h; cases h
      | some xe => rw [h2] at h; dsimp only at h; cases h
    | some xn =>
      rw [h1] at h
      cases h2 : r0.col cE with
      | none => rw [h2] at h; dsimp only at h; cases h
      | some xe =>
        rw [h2] at h; dsimp only at h
        cases h3 : annotate pn pe cN cE rs with
        | none => rw [h3] at h; cases h
        | some rest =>
          rw [h3] at h
          simp only [Option.map_some', Option.some.injEq] at h
          subst h
          rcases List.mem_cons.mp hr' with rfl | hmem
          · exact ⟨r0, List.mem_cons_self _ _, _, rfl⟩
          · obtain ⟨r, hr, v, hv⟩ := ih rest h3 r' hmem
            exact ⟨r, List.mem_cons_of_mem _ hr, v, hv⟩

theorem annotate_map_col (pn pe : ℚ) (cN cE : String) (c : String)
    (hc : c ≠ "Distance") :
    ∀ (st st1 : List Row), annotate pn pe cN cE st = some st1 →
      st1.map (fun r => (r.col c).getD 0) = st.map (fun r => (r.col c).getD 0) := by
  intro st
  induction st with
  | nil =>
    intro st1 h
    simp only [annotate, Option.some.injEq] at h
    subst h; rfl
  | cons r0 rs ih =>
    intro st1 h
    unfold annotate at h
    cases h1 : r0.col cN with
    | none =>
      rw [h1] at h
      cases h2 : r0.col cE with
      | none => rw [h2] at h; dsimp only at h; cases h
      | some xe => rw [h2] at h; dsimp only at h; cases h
    | some xn =>
      rw [h1] at h
      cases h2 : r0.col cE with
      | none => rw [h2] at h; dsimp only at h; cases h
      | some xe =>
        rw [h2] at h; dsimp only at h
        cases h3 : annotate pn pe cN cE rs with
        | none => rw [h3] at h; cases h
        | some rest =>
          rw [h3] at h
          simp only [Option.map_some', Option.some.injEq] at h
          subst h
          simp only [List.map_cons, setCol_col_ne _ _ _ _ hc, ih rest h3]

theorem mem_sortRows (l : List Row) (r : Row) : r ∈ sortRows l ↔ r ∈ l :=
  (sortRows_perm l).mem_iff

theorem sortRows_map_sum (l : List Row) (f : Row → ℚ) :
    ((sortRows l).map f).sum = (l.map f).sum :=
  ((sortRows_perm l).map f).sum_eq

theorem map_setCol_col (l : List Row) (c : String) (hc : c ≠ "Distance") :
    (l.map (fun r => r.setCol "Distance" 0)).map (fun r => (r.col c).getD 0)
      = l.map (fun r => (r.col c).getD 0) := by
  induction l with
  | nil => rfl
  | cons r rs ih => simp only [List.map_cons, setCol_col_ne _ _ _ _ hc, ih]

theorem insertInt_perm (x : Int) (l : List Int) :
    (insertInt x l).Perm (x :: l) := by
  induction l with
  | nil => simp [insertInt]
  | cons y ys ih =>
    unfold insertInt
    by_cases h : x ≤ y
    · simp [h]
    · simp only [h, if_false]
      exact (List.Perm.cons y ih).trans (List.Perm.swap x y ys)

theorem sortInt_perm (l : List Int) : (sortInt l).Perm l := by
  induction l with
  | nil => simp [sortInt]
  | cons x xs ih =>
    exact (insertInt_perm x (sortInt xs)).trans (List.Perm.cons x ih)

theorem mem_sortInt (l : List Int) (x : Int) : x ∈ sortInt l ↔ x ∈ l :=
  (sortInt_perm l).mem_iff

theorem measuresLoop_none (multi : Bool) (gs : List String) (proportions : List Bool)
    (st2 : List Row) (dists : List ℚ) (ksorted : List Int) (p : String) (k : Int)
    (hk : k ∈ ksorted)
    (hnn : ∀ r ∈ st2, 0 ≤ ((r.col p).getD 0))
    (hbig : (st2.map (fun r => (r.col p).getD 0)).sum < (k : ℚ)) :
    ∀ (ps : List String) (gi : Nat), p ∈ ps →
      measuresLoop multi gs proportions st2 dists ksorted gi ps = none := by
  intro ps
  induction ps with
  | nil => intro gi hp; simp at hp
  | cons q ps' ih =>
    intro gi hp
    unfold measuresLoop
    rcases List.mem_cons.mp hp with rfl | hp'
    · cases hla : lookupAll p st2 with
      | none => rfl
      | some pops =>
        dsimp only
        have hpops := lookupAll_eq_map p st2 pops hla
        have hnone : solveFrom dists ksorted pops 0 0 = none := by
          cases hs : solveFrom dists ksorted pops 0 0 with
          | none => rfl
          | some radii =>
            exfalso
            have hnn' : ∀ x ∈ pops, 0 ≤ x := by
              intro x hx
              rw [hpops] at hx
              obtain ⟨r, hr, rfl⟩ := List.mem_map.mp hx
              exact hnn r hr
            have hle := solveFrom_le dists ksorted pops 0 0 radii hnn' hs k hk
            rw [hpops, zero_add] at hle
            exact absurd hle (not_le.mpr hbig)
        rw [hnone]
    · cases hla : lookupAll q st2 with
      | none => rfl
      | some pops =>
        dsimp only
        cases hs : solveFrom dists ksorted pops 0 0 with
        | none => rfl
        | some radii =>
          dsimp only
          cases multi with
          | false =>
            simp only [Bool.false_eq_true, if_false]
            cases hpk : perK false gs proportions st2 q gi (ksorted.zip radii) with
            | none => rfl
            | some kEntries =>
              dsimp only
              rw [ih (gi + 1) hp']
          | true =>
            simp only [if_true]
            cases hg : gs.get? gi with
            | none => rfl
            | some g =>
              dsimp only
              cases hpk : perK true gs proportions st2 q gi (ksorted.zip radii) with
              | none => rfl
              | some kEntries =>
                dsimp only
                rw [ih (gi + 1) hp']

theorem pointStep_none (multi : Bool) (gs psl : List String) (proportions : List Bool)
    (ksorted : List Int) (pN pE cN cE : String) (st : List Row) (pt : Row)
    (p : String) (k : Int) (hk : k ∈ ksorted) (hp : p ∈ psl) (hpd : p ≠ "Distance")
    (hnn : ∀ r ∈ st, 0 ≤ ((r.col p).getD 0))
    (hbig : (st.map (fun r => (r.col p).getD 0)).sum < (k : ℚ)) :
    pointStep multi gs psl proportions ksorted pN pE cN cE st pt = none := by
  unfold pointStep
  cases h1 : pt.col pN with
  | none => rfl
  | some x =>
    dsimp only
    cases h2 : pt.col pE with
    | none => rfl
    | some y =>
      dsimp only
      cases h3 : annotate x y cN cE st with
      | none => rfl
      | some st1 =>
        dsimp only
        have hnn2 : ∀ r ∈ sortRows st1, 0 ≤ ((r.col p).getD 0) := by
          intro r hr
          obtain ⟨r0, hr0, v, rfl⟩ :=
            annotate_mem x y cN cE st st1 h3 r ((mem_sortRows st1 r).mp hr)
          rw [setCol_col_ne _ _ _ _ hpd]
          exact hnn r0 hr0
        have hbig2 :
            ((sortRows st1).map (fun r => (r.col p).getD 0)).sum < (k : ℚ) := by
          rw [sortRows_map_sum, annotate_map_col x y cN cE p hpd st st1 h3]
          exact hbig
        rw [measuresLoop_none multi gs proportions (sortRows st1) _ ksorted p k hk
          hnn2 hbig2 psl 0 hp]

theorem pointStep_distance (multi : Bool) (gs psl : List String)
    (proportions : List Bool) (ksorted : List Int) (pN pE cN cE : String)
    (st : List Row) (pt : Row) (row : List (RKey × RVal)) (st' : List Row)
    (h : pointStep multi gs psl proportions ksorted pN pE cN cE st pt = some (row, st')) :
    ∀ r ∈ st', (r.col "Distance").isSome := by
  unfold pointStep at h
  cases h1 : pt.col pN with
  | none => rw [h1] at h; cases h
  | some x =>
    rw [h1] at h; dsimp only at h
    cases h2 : pt.col pE with
    | none => rw [h2] at h; cases h
    | some y =>
      rw [h2] at h; dsimp only at h
      cases h3 : annotate x y cN cE st with
      | none => rw [h3] at h; cases h
      | some st1 =>
        rw [h3] at h; dsimp only at h
        cases h4 : measuresLoop multi gs proportions (sortRows st1)
            ((sortRows st1).map rowDist) ksorted 0 psl with
        | none => rw [h4] at h; cases h
        | some row' =>
          rw [h4] at h; dsimp only at h
          simp only [Option.some.injEq, Prod.mk.injEq] at h
          obtain ⟨-, h5⟩ := h
          subst h5
          intro r hr
          obtain ⟨r0, hr0, v, rfl⟩ :=
            annotate_mem x y cN cE st st1 h3 r ((mem_sortRows st1 r).mp hr)
          simp [setCol_col_self]

theorem runPoints_distance (multi : Bool) (gs psl : List String)
    (proportions : List Bool) (ksorted : List Int) (pN pE cN cE : String) :
    ∀ (pts st : List Row) (res : List (List (RKey × RVal))) (final : List Row),
      (∀ r ∈ st, (r.col "Distance").isSome) →
      runPoints multi gs psl proportions ksorted pN pE cN cE st pts = some (res, final) →
      ∀ r ∈ final, (r.col "Distance").isSome := by
  intro pts
  induction pts with
  | nil =>
    intro st res final hst h
    unfold runPoints at h
    simp only [Option.some.injEq, Prod.mk.injEq] at h
    obtain ⟨-, h2⟩ := h
    subst h2
    exact hst
  | cons pt pts ih =>
    intro st res final hst h
    unfold runPoints at h
    cases hps : pointStep multi gs psl proportions ksorted pN pE cN cE st pt with
    | none => rw [hps] at h; cases h
    | some t =>
      obtain ⟨row, st'⟩ := t
      rw [hps] at h; dsimp only at h
      cases hrun : runPoints multi gs psl proportions ksorted pN pE cN cE st' pts with
      | none => rw [hrun] at h; cases h
      | some t2 =>
        obtain ⟨rows, st''⟩ := t2
        rw [hrun] at h; dsimp only at h
        simp only [Option.some.injEq, Prod.mk.injEq] at h
        obtain ⟨-, h2⟩ := h
        subst h2
        exact ih st' rows st''
          (pointStep_distance multi gs psl proportions ksorted pN pE cN cE st pt row st' hps)
          hrun

theorem isqrtAux_sq_le (n : Nat) : ∀ m : Nat, isqrtAux n m * isqrtAux n m ≤ n := by
  intro m
  induction m with
  | zero => simp [isqrtAux]
  | succ m ih =>
    unfold isqrtAux
    by_cases h : (m + 1) * (m + 1) ≤ n
    · simp [h]
    · simp [h, ih]

theorem le_isqrtAux (n : Nat) : ∀ m j : Nat, j ≤ m → j * j ≤ n → j ≤ isqrtAux n m := by
  intro m
  induction m with
  | zero => intro j hj _; simpa [isqrtAux] using hj
  | succ m ih =>
    intro j hj hsq
    unfold isqrtAux
    by_cases h : (m + 1) * (m + 1) ≤ n
    · simp [h]; omega
    · simp [h]
      have hjm : j ≤ m := by
        by_contra hc
        push_neg at hc
        have hje : j = m + 1 := by omega
        subst hje
        exact h hsq
      exact ih j hjm hsq

/-- The structural square root agrees with `Nat.sqrt`, certifying that
`truncDist` computes the floor of the Euclidean distance. -/
theorem isqrt_eq_sqrt (n : Nat) : isqrt n = Nat.sqrt n := by
  apply le_antisymm
  · exact Nat.le_sqrt.mpr (isqrtAux_sq_le n n)
  · exact le_isqrtAux n n (Nat.sqrt n) (Nat.sqrt_le_self n) (Nat.sqrt_le n)

/-! ## Claim theorems -/

/-- Claim C4: the selection over which statistics are aggregated is exactly
the set of reference locations whose truncated distance is at most
`radius(k)` — a predicate over distances, not the first N locations by
pointer.  The second part is a concrete tie: for distances `[0, 5, 5]`
with populations `[2, 3, 3]` and `k = 4`, the walk consumes only the
first two locations (pointer 2, accumulated population 5), yet the
selection contains all three rows tied at the boundary distance 5, with
total population 8 — exceeding `k = 4` by more than the minimal amount. -/
theorem claim_C4_selection_is_distance_predicate :
    (∀ (st : List Row) (rad : ℚ) (r : Row),
        r ∈ selectRows st rad ↔ r ∈ st ∧ rowDist r ≤ rad) ∧
    walkFrom 4 [2, 3, 3] 0 0 = some (2, [3], 5) ∧
    solveFrom [0, 5, 5] [4] [2, 3, 3] 0 0 = some [5] ∧
    selectRows [⟨[("Distance", 0), ("P", 2)]⟩, ⟨[("Distance", 5), ("P", 3)]⟩,
        ⟨[("Distance", 5), ("P", 3)]⟩] 5
      = [⟨[("Distance", 0), ("P", 2)]⟩, ⟨[("Distance", 5), ("P", 3)]⟩,
        ⟨[("Distance", 5), ("P", 3)]⟩] ∧
    colSum "P" [⟨[("Distance", 0), ("P", 2)]⟩, ⟨[("Distance", 5), ("P", 3)]⟩,
        ⟨[("Distance", 5), ("P", 3)]⟩] = some 8 ∧
    (4 : ℚ) < 8 := by
  refine ⟨?_, ?_, ?_, ?_, ?_, by norm_num⟩
  · intro st rad r
    rw [selectRows, List.mem_filter, decide_eq_true_eq]
  · norm_num [walkFrom]
  · norm_num [solveFrom, walkFrom, iloc, Int.toNat]
  · simp only [selectRows, List.filter, rowDist, Row.col, List.lookup, String.reduceBEq,
      Option.getD]
    norm_num
  · simp only [colSum, lookupAll, Row.col, List.lookup, String.reduceBEq, Option.map,
      List.sum_cons, List.sum_nil]
    norm_num

/-- Claim C4 witness: the membership characterisation instantiated at a
concrete row, selection and radius. -/
theorem claim_C4_selection_witness :
    (⟨[("Distance", 3)]⟩ : Row) ∈ selectRows [⟨[("Distance", 3)]⟩] 5 ↔
      (⟨[("Distance", 3)]⟩ : Row) ∈ [(⟨[("Distance", 3)]⟩ : Row)] ∧
        rowDist ⟨[("Distance", 3)]⟩ ≤ 5 :=
  claim_C4_selection_is_distance_predicate.1 [⟨[("Distance", 3)]⟩] 5 ⟨[("Distance", 3)]⟩

/-- Claim C6: in weighted mode, for a selection of two locations with group
values `v1, v2` and populations `w1, w2` (total weight nonzero), the
aggregation stores the population-weighted mean
`(w1·v1 + w2·v2)/(w1 + w2)` and the biased population-weighted variance
`(w1·(v1 − mean)² + w2·(v2 − mean)²)/(w1 + w2)` — no Bessel correction —
and the stored standard deviation is the square root of that variance. -/
theorem claim_C6_weighted_stats (v1 v2 w1 w2 : ℚ) (h : w1 + w2 ≠ 0) :
    weightedEntry [⟨[("G", v1), ("P", w1)]⟩, ⟨[("G", v2), ("P", w2)]⟩] "G" "P"
      = some ((w1 * v1 + w2 * v2) / (w1 + w2),
          (w1 * (v1 - (w1 * v1 + w2 * v2) / (w1 + w2)) ^ 2
            + w2 * (v2 - (w1 * v1 + w2 * v2) / (w1 + w2)) ^ 2) / (w1 + w2)) ∧
    (∀ x : ℚ, (RVal.sqrtOf x).toReal = Real.sqrt (x : ℝ)) := by
  refine ⟨?_, fun x => rfl⟩
  have h0 : ¬ (w1 + (w2 + 0) = 0) := by simpa using h
  simp only [weightedEntry, lookupAll, Row.col, List.lookup, String.reduceBEq,
    Option.map, npAverage, List.zipWith, List.map, List.sum_cons, List.sum_nil, h0,
    if_false, Option.some.injEq, Prod.mk.injEq]
  constructor
  · field_simp
    ring
  · field_simp
    ring

/-- Claim C6 witness: the weighted-statistic formulas at the concrete
selection with values 2, 6 and populations 1, 3. -/
theorem claim_C6_weighted_witness :
    ((1 : ℚ) + 3 ≠ 0) ∧
    weightedEntry [⟨[("G", 2), ("P", 1)]⟩, ⟨[("G", 6), ("P", 3)]⟩] "G" "P"
      = some ((1 * 2 + 3 * 6) / (1 + 3),
          (1 * (2 - (1 * 2 + 3 * 6) / (1 + 3)) ^ 2
            + 3 * (6 - (1 * 2 + 3 * 6) / (1 + 3)) ^ 2) / (1 + 3)) := by
  have h : (1 : ℚ) + 3 ≠ 0 := by norm_num
  exact ⟨h, (claim_C6_weighted_stats 2 6 1 3 h).1⟩

/-- Claim C9 counterexample: the claim admits a bare column name as a valid
population specification, but the code raises (`type(populations) == list`
fails) — first conjunct.  The claim's length condition also reads "length
greater than one", but an empty population list with a nonempty group
list is rejected too — second conjunct.  A well-formed multi-mode
configuration passes — third conjunct. -/
theorem claim_C9_config_cex :
    validate (.strList ["A"]) (.name "Pop") (.intList [1]) = none ∧
    validate (.strList ["A"]) (.strList []) (.intList [1]) = none ∧
    validate (.strList ["A", "B"]) (.strList ["P1", "P2"]) (.intList [1, 2])
      = some true :=
  ⟨rfl, rfl, rfl⟩

/-- Claim C9 (amended): `geocontext`'s eager validation (run before any
per-point work) raises if and only if: the group argument is not a list,
or the population argument is not a list (a bare column name is rejected,
despite the wording of the error message), or the population list has
length other than one and different from the group list's, or the
k-threshold argument is not a list. -/
theorem claim_C9_validate_error_iff (groups populations kValues : PyArg) :
    validate groups populations kValues = none ↔
      (groups.isPyList = false ∨ populations.isPyList = false ∨
        (populations.pyLen ≠ 1 ∧ groups.pyLen ≠ populations.pyLen) ∨
        kValues.isPyList = false) := by
  unfold validate
  by_cases hg : groups.isPyList = true <;> by_cases hp : populations.isPyList = true <;>
    by_cases hk : kValues.isPyList = true <;> by_cases h1 : populations.pyLen = 1 <;>
      by_cases h2 : groups.pyLen = populations.pyLen <;>
        simp_all

/-- Claim C9 witness: the validation characterisation instantiated at a
concrete, accepted configuration. -/
theorem claim_C9_validate_iff_witness :
    validate (.strList ["A"]) (.strList ["P"]) (.intList [1]) = none ↔
      ((PyArg.strList ["A"]).isPyList = false ∨
        (PyArg.strList ["P"]).isPyList = false ∨
        ((PyArg.strList ["P"]).pyLen ≠ 1 ∧
          (PyArg.strList ["A"]).pyLen ≠ (PyArg.strList ["P"]).pyLen) ∨
        (PyArg.intList [1]).isPyList = false) :=
  claim_C9_validate_error_iff (.strList ["A"]) (.strList ["P"]) (.intList [1])

/-- Claim C10: when the smallest configured k is ≤ 0, the threshold walk
consumes no location for it (the accumulator 0 already meets it), and the
recorded radius is `Distance.iloc[-1]` — the distance of the *last*
location of the ascending ordering (the maximum distance), via Python's
negative-index wrap, rather than 0.  Consequently the radii are not
non-decreasing: for distances `[0, 5, 10]`, populations `[2, 3, 5]` and
(sorted) thresholds `[0, 4]` the radii are `[10, 5]`. -/
theorem claim_C10_nonpositive_k (dists pops : List ℚ) (k : Int) (ks : List Int)
    (hk : k ≤ 0) (hne : dists ≠ []) :
    walkFrom (k : ℚ) pops 0 0 = some (0, pops, 0) ∧
    (∀ rs, solveFrom dists (k :: ks) pops 0 0 = some rs → rs.head? = dists.getLast?) ∧
    (solveFrom [0, 5, 10] [0, 4] [2, 3, 5] 0 0 = some [10, 5] ∧
      ¬ List.Pairwise (· ≤ ·) ([10, 5] : List ℚ)) := by
  have hk0 : ¬ ((0 : ℚ) < (k : ℚ)) := by
    push_neg
    exact_mod_cast hk
  have hwalk : walkFrom (k : ℚ) pops 0 0 = some (0, pops, 0) := by
    unfold walkFrom
    rw [if_neg hk0]
  refine ⟨hwalk, ?_, ?_, ?_⟩
  · intro rs h
    unfold solveFrom at h
    rw [hwalk] at h; dsimp only at h
    simp only [Nat.cast_zero, zero_sub] at h
    rw [iloc_neg_one dists hne] at h
    cases hgl : dists.getLast? with
    | none => rw [hgl] at h; cases h
    | some r =>
      rw [hgl] at h; dsimp only at h
      cases hrec : solveFrom dists ks pops 0 0 with
      | none => rw [hrec] at h; cases h
      | some rs' =>
        rw [hrec] at h; dsimp only at h
        simp only [Option.some.injEq] at h
        subst h
        rfl
  · norm_num [solveFrom, walkFrom, iloc, Int.toNat]
  · norm_num [List.pairwise_cons]

/-- Claim C10 witness: the wrap-around behaviour at k = 0 over distances
`[0, 5, 10]` and populations `[2, 3, 5]`. -/
theorem claim_C10_nonpositive_k_witness :
    walkFrom ((0 : Int) : ℚ) [2, 3, 5] 0 0 = some (0, [2, 3, 5], 0) ∧
    ([10, 5] : List ℚ).head? = ([0, 5, 10] : List ℚ).getLast? := by
  obtain ⟨h1, h2, h3, -⟩ := claim_C10_nonpositive_k [0, 5, 10] [2, 3, 5] 0 [4]
    (by norm_num) (by simp)
  exact ⟨h1, h2 [10, 5] h3⟩

/-- Claim C3 (amended): for a sorted ascending distance column and
configured thresholds that are all ≥ 1, the solved radii are pairwise
non-decreasing in the (sorted) k order: radius(k1) ≤ radius(k2) for k1
before k2.  (For thresholds ≤ 0 the claim fails, see the counterexample:
the pointer-minus-one lookup wraps to the maximum distance.) -/
theorem claim_C3_radii_monotone_for_positive_k (dists : List ℚ) (ks : List Int)
    (pops : List ℚ) (rs : List ℚ) (hd : List.Sorted (· ≤ ·) dists)
    (hks : ∀ k ∈ ks, 1 ≤ k) (hs : solveFrom dists ks pops 0 0 = some rs) :
    rs.Pairwise (· ≤ ·) :=
  (solveFrom_pairwise dists hd ks pops 0 0 rs hks (Or.inl ⟨rfl, rfl⟩) hs).1

/-- Claim C3 witness: monotone radii at a concrete sorted reference set with
positive thresholds. -/
theorem claim_C3_radii_monotone_witness :
    List.Sorted (· ≤ ·) ([0, 5, 10] : List ℚ) ∧
    solveFrom [0, 5, 10] [4, 6] [2, 3, 5] 0 0 = some [5, 10] ∧
    List.Pairwise (· ≤ ·) ([5, 10] : List ℚ) := by
  have hd : List.Sorted (· ≤ ·) ([0, 5, 10] : List ℚ) := by
    norm_num [List.sorted_cons]
  have hs : solveFrom [0, 5, 10] [4, 6] [2, 3, 5] 0 0 = some [5, 10] := by
    norm_num [solveFrom, walkFrom, iloc, Int.toNat]
  exact ⟨hd, hs, claim_C3_radii_monotone_for_positive_k [0, 5, 10] [4, 6] [2, 3, 5]
    [5, 10] hd (by decide) hs⟩

/-- Claim C2: the RadiusSolver walk on the reference set at distances
`[0, 5, 10]` with populations `[2, 3, 5]` and `k = [4]`: the accumulator
takes 2 (< 4) then 2 + 3 = 5 (≥ 4), so the walk stops with pointer 2 and
the radius is the distance of the location consumed last, 5.  Through the
whole pipeline (reference rows at Euclidean distances 0, 5, 10 from the
query point), the selection is the first two locations and the recorded
total population is 5. -/
theorem claim_C2_threshold_walk_scenario :
    walkFrom 4 [2, 3, 5] 0 0 = some (2, [5], 5) ∧
    solveFrom [0, 5, 10] [4] [2, 3, 5] 0 0 = some [5] ∧
    geocontext [⟨[("North", 0), ("East", 0)]⟩]
      [⟨[("North", 0), ("East", 0), ("P", 2), ("G", 1)]⟩,
       ⟨[("North", 3), ("East", 4), ("P", 3), ("G", 1)]⟩,
       ⟨[("North", 6), ("East", 8), ("P", 5), ("G", 1)]⟩]
      (.strList ["G"]) (.strList ["P"]) (.intList [4]) [true]
      "North" "East" "North" "East"
      = some ([[(RKey.radius none 4, RVal.q 5),
                (RKey.group "G" 4, RVal.q 2),
                (RKey.total none 4, RVal.q 5),
                (RKey.mean "G" 4, RVal.q (2 / 5))]],
              [⟨[("North", 0), ("East", 0), ("P", 2), ("G", 1), ("Distance", 0)]⟩,
               ⟨[("North", 3), ("East", 4), ("P", 3), ("G", 1), ("Distance", 5)]⟩,
               ⟨[("North", 6), ("East", 8), ("P", 5), ("G", 1), ("Distance", 10)]⟩]) := by
  refine ⟨by norm_num [walkFrom], by norm_num [solveFrom, walkFrom, iloc, Int.toNat], ?_⟩
  all_goals try simp only [geocontext, validate, PyArg.isPyList, PyArg.pyLen, argStrNames, argIntVals,
      sortInt, insertInt, runPoints, pointStep, Row.col, Row.setCol, upsert, annotate,
      truncDist, isqrt, isqrtAux, sortRows, insertRow, rowDist, measuresLoop, lookupAll,
      solveFrom, walkFrom, iloc, perK, selectRows, aggGroups, groupStat, colSum,
      npAverage, weightedEntry, finishAll, finishRow, finishGroups, rkLookup, List.lookup,
      String.reduceEq, String.reduceBEq, List.filter, List.zipWith, List.zip,
      Option.map, Rat.floor, reduceCtorEq, RKey.radius.injEq, RKey.group.injEq,
      RKey.mean.injEq, RKey.std.injEq, RKey.total.injEq, Option.some.injEq]
  all_goals try norm_num
  all_goals try simp only [geocontext, validate, PyArg.isPyList, PyArg.pyLen, argStrNames, argIntVals,
      sortInt, insertInt, runPoints, pointStep, Row.col, Row.setCol, upsert, annotate,
      truncDist, isqrt, isqrtAux, sortRows, insertRow, rowDist, measuresLoop, lookupAll,
      solveFrom, walkFrom, iloc, perK, selectRows, aggGroups, groupStat, colSum,
      npAverage, weightedEntry, finishAll, finishRow, finishGroups, rkLookup, List.lookup,
      String.reduceEq, String.reduceBEq, List.filter, List.zipWith, List.zip,
      Option.map, Rat.floor, reduceCtorEq, RKey.radius.injEq, RKey.group.injEq,
      RKey.mean.injEq, RKey.std.injEq, RKey.total.injEq, Option.some.injEq]
  all_goals try norm_num
  all_goals try simp only [geocontext, validate, PyArg.isPyList, PyArg.pyLen, argStrNames, argIntVals,
      sortInt, insertInt, runPoints, pointStep, Row.col, Row.setCol, upsert, annotate,
      truncDist, isqrt, isqrtAux, sortRows, insertRow, rowDist, measuresLoop, lookupAll,
      solveFrom, walkFrom, iloc, perK, selectRows, aggGroups, groupStat, colSum,
      npAverage, weightedEntry, finishAll, finishRow, finishGroups, rkLookup, List.lookup,
      String.reduceEq, String.reduceBEq, List.filter, List.zipWith, List.zip,
      Option.map, Rat.floor, reduceCtorEq, RKey.radius.injEq, RKey.group.injEq,
      RKey.mean.injEq, RKey.std.injEq, RKey.total.injEq, Option.some.injEq]
  all_goals try norm_num
  all_goals try simp only [geocontext, validate, PyArg.isPyList, PyArg.pyLen, argStrNames, argIntVals,
      sortInt, insertInt, runPoints, pointStep, Row.col, Row.setCol, upsert, annotate,
      truncDist, isqrt, isqrtAux, sortRows, insertRow, rowDist, measuresLoop, lookupAll,
      solveFrom, walkFrom, iloc, perK, selectRows, aggGroups, groupStat, colSum,
      npAverage, weightedEntry, finishAll, finishRow, finishGroups, rkLookup, List.lookup,
      String.reduceEq, String.reduceBEq, List.filter, List.zipWith, List.zip,
      Option.map, Rat.floor, reduceCtorEq, RKey.radius.injEq, RKey.group.injEq,
      RKey.mean.injEq, RKey.std.injEq, RKey.total.injEq, Option.some.injEq]
  all_goals try norm_num
  all_goals try simp only [geocontext, validate, PyArg.isPyList, PyArg.pyLen, argStrNames, argIntVals,
      sortInt, insertInt, runPoints, pointStep, Row.col, Row.setCol, upsert, annotate,
      truncDist, isqrt, isqrtAux, sortRows, insertRow, rowDist, measuresLoop, lookupAll,
      solveFrom, walkFrom, iloc, perK, selectRows, aggGroups, groupStat, colSum,
      npAverage, weightedEntry, finishAll, finishRow, finishGroups, rkLookup, List.lookup,
      String.reduceEq, String.reduceBEq, List.filter, List.zipWith, List.zip,
      Option.map, Rat.floor, reduceCtorEq, RKey.radius.injEq, RKey.group.injEq,
      RKey.mean.injEq, RKey.std.injEq, RKey.total.injEq, Option.some.injEq]
  all_goals try norm_num

/-- Claim C3 counterexample: with thresholds supplied as `[4, 0]` (sorted to
`[0, 4]` before use), the solved radii over distances `[0, 5, 10]` and
populations `[2, 3, 5]` are radius(0) = 10 and radius(4) = 5: for the
configured pair k1 = 0 < k2 = 4 the claim radius(k1) ≤ radius(k2) fails,
since ¬(10 ≤ 5). -/
theorem claim_C3_monotonicity_cex :
    geocontext [⟨[("North", 0), ("East", 0)]⟩]
      [⟨[("North", 0), ("East", 0), ("P", 2), ("G", 1)]⟩,
       ⟨[("North", 3), ("East", 4), ("P", 3), ("G", 1)]⟩,
       ⟨[("North", 6), ("East", 8), ("P", 5), ("G", 1)]⟩]
      (.strList ["G"]) (.strList ["P"]) (.intList [4, 0]) [true]
      "North" "East" "North" "East"
      = some ([[(RKey.radius none 0, RVal.q 10),
                (RKey.radius none 4, RVal.q 5),
                (RKey.group "G" 0, RVal.q 3),
                (RKey.total none 0, RVal.q 10),
                (RKey.group "G" 4, RVal.q 2),
                (RKey.total none 4, RVal.q 5),
                (RKey.mean "G" 0, RVal.q (3 / 10)),
                (RKey.mean "G" 4, RVal.q (2 / 5))]],
              [⟨[("North", 0), ("East", 0), ("P", 2), ("G", 1), ("Distance", 0)]⟩,
               ⟨[("North", 3), ("East", 4), ("P", 3), ("G", 1), ("Distance", 5)]⟩,
               ⟨[("North", 6), ("East", 8), ("P", 5), ("G", 1), ("Distance", 10)]⟩]) ∧
    ¬ ((10 : ℚ) ≤ 5) := by
  refine ⟨?_, by norm_num⟩
  all_goals try simp only [geocontext, validate, PyArg.isPyList, PyArg.pyLen, argStrNames, argIntVals,
      sortInt, insertInt, runPoints, pointStep, Row.col, Row.setCol, upsert, annotate,
      truncDist, isqrt, isqrtAux, sortRows, insertRow, rowDist, measuresLoop, lookupAll,
      solveFrom, walkFrom, iloc, perK, selectRows, aggGroups, groupStat, colSum,
      npAverage, weightedEntry, finishAll, finishRow, finishGroups, rkLookup, List.lookup,
      String.reduceEq, String.reduceBEq, List.filter, List.zipWith, List.zip,
      Option.map, Rat.floor, reduceCtorEq, RKey.radius.injEq, RKey.group.injEq,
      RKey.mean.injEq, RKey.std.injEq, RKey.total.injEq, Option.some.injEq]
  all_goals try norm_num
  all_goals try simp only [geocontext, validate, PyArg.isPyList, PyArg.pyLen, argStrNames, argIntVals,
      sortInt, insertInt, runPoints, pointStep, Row.col, Row.setCol, upsert, annotate,
      truncDist, isqrt, isqrtAux, sortRows, insertRow, rowDist, measuresLoop, lookupAll,
      solveFrom, walkFrom, iloc, perK, selectRows, aggGroups, groupStat, colSum,
      npAverage, weightedEntry, finishAll, finishRow, finishGroups, rkLookup, List.lookup,
      String.reduceEq, String.reduceBEq, List.filter, List.zipWith, List.zip,
      Option.map, Rat.floor, reduceCtorEq, RKey.radius.injEq, RKey.group.injEq,
      RKey.mean.injEq, RKey.std.injEq, RKey.total.injEq, Option.some.injEq]
  all_goals try norm_num
  all_goals try simp only [geocontext, validate, PyArg.isPyList, PyArg.pyLen, argStrNames, argIntVals,
      sortInt, insertInt, runPoints, pointStep, Row.col, Row.setCol, upsert, annotate,
      truncDist, isqrt, isqrtAux, sortRows, insertRow, rowDist, measuresLoop, lookupAll,
      solveFrom, walkFrom, iloc, perK, selectRows, aggGroups, groupStat, colSum,
      npAverage, weightedEntry, finishAll, finishRow, finishGroups, rkLookup, List.lookup,
      String.reduceEq, String.reduceBEq, List.filter, List.zipWith, List.zip,
      Option.map, Rat.floor, reduceCtorEq, RKey.radius.injEq, RKey.group.injEq,
      RKey.mean.injEq, RKey.std.injEq, RKey.total.injEq, Option.some.injEq]
  all_goals try norm_num
  all_goals try simp only [geocontext, validate, PyArg.isPyList, PyArg.pyLen, argStrNames, argIntVals,
      sortInt, insertInt, runPoints, pointStep, Row.col, Row.setCol, upsert, annotate,
      truncDist, isqrt, isqrtAux, sortRows, insertRow, rowDist, measuresLoop, lookupAll,
      solveFrom, walkFrom, iloc, perK, selectRows, aggGroups, groupStat, colSum,
      npAverage, weightedEntry, finishAll, finishRow, finishGroups, rkLookup, List.lookup,
      String.reduceEq, String.reduceBEq, List.filter, List.zipWith, List.zip,
      Option.map, Rat.floor, reduceCtorEq, RKey.radius.injEq, RKey.group.injEq,
      RKey.mean.injEq, RKey.std.injEq, RKey.total.injEq, Option.some.injEq]
  all_goals try norm_num
  all_goals try simp only [geocontext, validate, PyArg.isPyList, PyArg.pyLen, argStrNames, argIntVals,
      sortInt, insertInt, runPoints, pointStep, Row.col, Row.setCol, upsert, annotate,
      truncDist, isqrt, isqrtAux, sortRows, insertRow, rowDist, measuresLoop, lookupAll,
      solveFrom, walkFrom, iloc, perK, selectRows, aggGroups, groupStat, colSum,
      npAverage, weightedEntry, finishAll, finishRow, finishGroups, rkLookup, List.lookup,
      String.reduceEq, String.reduceBEq, List.filter, List.zipWith, List.zip,
      Option.map, Rat.floor, reduceCtorEq, RKey.radius.injEq, RKey.group.injEq,
      RKey.mean.injEq, RKey.std.injEq, RKey.total.injEq, Option.some.injEq]
  all_goals try norm_num

/-- Claim C1 (code bug): in single-population mode the notebook reads the
proportion flag at `proportions[groupIndex]` where `groupIndex` counts
*population* columns and is stuck at 0, so the first group's flag decides
the aggregation of every group, contradicting the notebook's own
docstring and usage instructions ("for each column ... True means
proportion").  With groups `[A, B]`, flags `[True, False]`, one shared
population column `P` and k = 1: group B is stored as a *sum*
(`group_B_k1` = 2) and no weighted mean or standard deviation is computed
for it, although B's own flag is False.  With flags `[False, True]` the
run even aborts: the finishing pass derives a proportion for B from the
`group_B_k1` column that the aggregation (driven by A's False flag) never
created — a KeyError. -/
theorem claim_C1_single_mode_flag_bug :
    geocontext [⟨[("North", 0), ("East", 0)]⟩]
      [⟨[("North", 0), ("East", 0), ("A", 1), ("B", 2), ("P", 4)]⟩]
      (.strList ["A", "B"]) (.strList ["P"]) (.intList [1]) [true, false]
      "North" "East" "North" "East"
      = some ([[(RKey.radius none 1, RVal.q 0),
                (RKey.group "A" 1, RVal.q 1),
                (RKey.group "B" 1, RVal.q 2),
                (RKey.total none 1, RVal.q 4),
                (RKey.mean "A" 1, RVal.q (1 / 4))]],
              [⟨[("North", 0), ("East", 0), ("A", 1), ("B", 2), ("P", 4),
                ("Distance", 0)]⟩]) ∧
    rkLookup [(RKey.radius none 1, RVal.q 0), (RKey.group "A" 1, RVal.q 1),
        (RKey.group "B" 1, RVal.q 2), (RKey.total none 1, RVal.q 4),
        (RKey.mean "A" 1, RVal.q (1 / 4))] (RKey.mean "B" 1) = none ∧
    rkLookup [(RKey.radius none 1, RVal.q 0), (RKey.group "A" 1, RVal.q 1),
        (RKey.group "B" 1, RVal.q 2), (RKey.total none 1, RVal.q 4),
        (RKey.mean "A" 1, RVal.q (1 / 4))] (RKey.std "B" 1) = none ∧
    geocontext [⟨[("North", 0), ("East", 0)]⟩]
      [⟨[("North", 0), ("East", 0), ("A", 1), ("B", 2), ("P", 4)]⟩]
      (.strList ["A", "B"]) (.strList ["P"]) (.intList [1]) [false, true]
      "North" "East" "North" "East" = none := by
  refine ⟨?_, by simp [rkLookup], by simp [rkLookup], ?_⟩
  all_goals try simp only [geocontext, validate, PyArg.isPyList, PyArg.pyLen, argStrNames, argIntVals,
      sortInt, insertInt, runPoints, pointStep, Row.col, Row.setCol, upsert, annotate,
      truncDist, isqrt, isqrtAux, sortRows, insertRow, rowDist, measuresLoop, lookupAll,
      solveFrom, walkFrom, iloc, perK, selectRows, aggGroups, groupStat, colSum,
      npAverage, weightedEntry, finishAll, finishRow, finishGroups, rkLookup, List.lookup,
      String.reduceEq, String.reduceBEq, List.filter, List.zipWith, List.zip,
      Option.map, Rat.floor, reduceCtorEq, RKey.radius.injEq, RKey.group.injEq,
      RKey.mean.injEq, RKey.std.injEq, RKey.total.injEq, Option.some.injEq]
  all_goals try norm_num
  all_goals try simp only [geocontext, validate, PyArg.isPyList, PyArg.pyLen, argStrNames, argIntVals,
      sortInt, insertInt, runPoints, pointStep, Row.col, Row.setCol, upsert, annotate,
      truncDist, isqrt, isqrtAux, sortRows, insertRow, rowDist, measuresLoop, lookupAll,
      solveFrom, walkFrom, iloc, perK, selectRows, aggGroups, groupStat, colSum,
      npAverage, weightedEntry, finishAll, finishRow, finishGroups, rkLookup, List.lookup,
      String.reduceEq, String.reduceBEq, List.filter, List.zipWith, List.zip,
      Option.map, Rat.floor, reduceCtorEq, RKey.radius.injEq, RKey.group.injEq,
      RKey.mean.injEq, RKey.std.injEq, RKey.total.injEq, Option.some.injEq]
  all_goals try norm_num
  all_goals try simp only [geocontext, validate, PyArg.isPyList, PyArg.pyLen, argStrNames, argIntVals,
      sortInt, insertInt, runPoints, pointStep, Row.col, Row.setCol, upsert, annotate,
      truncDist, isqrt, isqrtAux, sortRows, insertRow, rowDist, measuresLoop, lookupAll,
      solveFrom, walkFrom, iloc, perK, selectRows, aggGroups, groupStat, colSum,
      npAverage, weightedEntry, finishAll, finishRow, finishGroups, rkLookup, List.lookup,
      String.reduceEq, String.reduceBEq, List.filter, List.zipWith, List.zip,
      Option.map, Rat.floor, reduceCtorEq, RKey.radius.injEq, RKey.group.injEq,
      RKey.mean.injEq, RKey.std.injEq, RKey.total.injEq, Option.some.injEq]
  all_goals try norm_num
  all_goals try simp only [geocontext, validate, PyArg.isPyList, PyArg.pyLen, argStrNames, argIntVals,
      sortInt, insertInt, runPoints, pointStep, Row.col, Row.setCol, upsert, annotate,
      truncDist, isqrt, isqrtAux, sortRows, insertRow, rowDist, measuresLoop, lookupAll,
      solveFrom, walkFrom, iloc, perK, selectRows, aggGroups, groupStat, colSum,
      npAverage, weightedEntry, finishAll, finishRow, finishGroups, rkLookup, List.lookup,
      String.reduceEq, String.reduceBEq, List.filter, List.zipWith, List.zip,
      Option.map, Rat.floor, reduceCtorEq, RKey.radius.injEq, RKey.group.injEq,
      RKey.mean.injEq, RKey.std.injEq, RKey.total.injEq, Option.some.injEq]
  all_goals try norm_num
  all_goals try simp only [geocontext, validate, PyArg.isPyList, PyArg.pyLen, argStrNames, argIntVals,
      sortInt, insertInt, runPoints, pointStep, Row.col, Row.setCol, upsert, annotate,
      truncDist, isqrt, isqrtAux, sortRows, insertRow, rowDist, measuresLoop, lookupAll,
      solveFrom, walkFrom, iloc, perK, selectRows, aggGroups, groupStat, colSum,
      npAverage, weightedEntry, finishAll, finishRow, finishGroups, rkLookup, List.lookup,
      String.reduceEq, String.reduceBEq, List.filter, List.zipWith, List.zip,
      Option.map, Rat.floor, reduceCtorEq, RKey.radius.injEq, RKey.group.injEq,
      RKey.mean.injEq, RKey.std.injEq, RKey.total.injEq, Option.some.injEq]
  all_goals try norm_num

/-- Claim C7 counterexample: `geocontext` does not leave the caller's
reference table unchanged — after a run over one query point, the
returned final state of `popLocations` carries a `Distance` column that
the input table did not have (the notebook writes
`popLocations['Distance'] = 0` and re-sorts the shared table in place). -/
theorem claim_C7_mutation_cex :
    Option.map Prod.snd (geocontext [⟨[("North", 0), ("East", 0)]⟩]
        [⟨[("North", 0), ("East", 0), ("P", 2), ("G", 1)]⟩]
        (.strList ["G"]) (.strList ["P"]) (.intList [1]) [true]
        "North" "East" "North" "East")
      = some [⟨[("North", 0), ("East", 0), ("P", 2), ("G", 1), ("Distance", 0)]⟩] ∧
    [(⟨[("North", 0), ("East", 0), ("P", 2), ("G", 1), ("Distance", 0)]⟩ : Row)]
      ≠ [(⟨[("North", 0), ("East", 0), ("P", 2), ("G", 1)]⟩ : Row)] := by
  constructor
  ·
    all_goals try simp only [geocontext, validate, PyArg.isPyList, PyArg.pyLen, argStrNames, argIntVals,
      sortInt, insertInt, runPoints, pointStep, Row.col, Row.setCol, upsert, annotate,
      truncDist, isqrt, isqrtAux, sortRows, insertRow, rowDist, measuresLoop, lookupAll,
      solveFrom, walkFrom, iloc, perK, selectRows, aggGroups, groupStat, colSum,
      npAverage, weightedEntry, finishAll, finishRow, finishGroups, rkLookup, List.lookup,
      String.reduceEq, String.reduceBEq, List.filter, List.zipWith, List.zip,
      Option.map, Rat.floor, reduceCtorEq, RKey.radius.injEq, RKey.group.injEq,
      RKey.mean.injEq, RKey.std.injEq, RKey.total.injEq, Option.some.injEq]
    all_goals try norm_num
    all_goals try simp only [geocontext, validate, PyArg.isPyList, PyArg.pyLen, argStrNames, argIntVals,
      sortInt, insertInt, runPoints, pointStep, Row.col, Row.setCol, upsert, annotate,
      truncDist, isqrt, isqrtAux, sortRows, insertRow, rowDist, measuresLoop, lookupAll,
      solveFrom, walkFrom, iloc, perK, selectRows, aggGroups, groupStat, colSum,
      npAverage, weightedEntry, finishAll, finishRow, finishGroups, rkLookup, List.lookup,
      String.reduceEq, String.reduceBEq, List.filter, List.zipWith, List.zip,
      Option.map, Rat.floor, reduceCtorEq, RKey.radius.injEq, RKey.group.injEq,
      RKey.mean.injEq, RKey.std.injEq, RKey.total.injEq, Option.some.injEq]
    all_goals try norm_num
    all_goals try simp only [geocontext, validate, PyArg.isPyList, PyArg.pyLen, argStrNames, argIntVals,
      sortInt, insertInt, runPoints, pointStep, Row.col, Row.setCol, upsert, annotate,
      truncDist, isqrt, isqrtAux, sortRows, insertRow, rowDist, measuresLoop, lookupAll,
      solveFrom, walkFrom, iloc, perK, selectRows, aggGroups, groupStat, colSum,
      npAverage, weightedEntry, finishAll, finishRow, finishGroups, rkLookup, List.lookup,
      String.reduceEq, String.reduceBEq, List.filter, List.zipWith, List.zip,
      Option.map, Rat.floor, reduceCtorEq, RKey.radius.injEq, RKey.group.injEq,
      RKey.mean.injEq, RKey.std.injEq, RKey.total.injEq, Option.some.injEq]
    all_goals try norm_num
    all_goals try simp only [geocontext, validate, PyArg.isPyList, PyArg.pyLen, argStrNames, argIntVals,
      sortInt, insertInt, runPoints, pointStep, Row.col, Row.setCol, upsert, annotate,
      truncDist, isqrt, isqrtAux, sortRows, insertRow, rowDist, measuresLoop, lookupAll,
      solveFrom, walkFrom, iloc, perK, selectRows, aggGroups, groupStat, colSum,
      npAverage, weightedEntry, finishAll, finishRow, finishGroups, rkLookup, List.lookup,
      String.reduceEq, String.reduceBEq, List.filter, List.zipWith, List.zip,
      Option.map, Rat.floor, reduceCtorEq, RKey.radius.injEq, RKey.group.injEq,
      RKey.mean.injEq, RKey.std.injEq, RKey.total.injEq, Option.some.injEq]
    all_goals try norm_num
  · intro h
    have := congrArg (fun l => (l.headD ⟨[]⟩).cols.length) h
    simp at this

/-- Claim C7 (amended): `geocontext` mutates the shared reference table —
on any successful run, every row of the final `popLocations` state
carries the per-point scratch `Distance` column (written before the point
loop and rewritten for every point), and the rows are left re-sorted by
the last point's distances rather than restored. -/
theorem claim_C7_distance_column_written (points popLocations : List Row)
    (groups populations kValues : PyArg) (proportions : List Bool)
    (pN pE cN cE : String) (res : List (List (RKey × RVal))) (final : List Row)
    (h : geocontext points popLocations groups populations kValues proportions
      pN pE cN cE = some (res, final)) :
    ∀ r ∈ final, (r.col "Distance").isSome := by
  unfold geocontext at h
  cases hv : validate groups populations kValues with
  | none => rw [hv] at h; cases h
  | some multi =>
    rw [hv] at h; dsimp only at h
    cases hg : argStrNames groups with
    | none => rw [hg] at h; cases h
    | some gs =>
      rw [hg] at h; dsimp only at h
      cases hp : argStrNames populations with
      | none => rw [hp] at h; cases h
      | some ps =>
        rw [hp] at h; dsimp only at h
        cases hkv : argIntVals kValues with
        | none => rw [hkv] at h; cases h
        | some ks =>
          rw [hkv] at h; dsimp only at h
          cases hrun : runPoints multi gs ps proportions (sortInt ks) pN pE cN cE
              (popLocations.map (fun r => r.setCol "Distance" 0)) points with
          | none => rw [hrun] at h; cases h
          | some t =>
            obtain ⟨results, stFinal⟩ := t
            rw [hrun] at h; dsimp only at h
            by_cases he : results.isEmpty = true
            · rw [if_pos he] at h; cases h
            · rw [if_neg he] at h
              cases hf : finishAll multi gs proportions (sortInt ks) results with
              | none => rw [hf] at h; cases h
              | some finished =>
                rw [hf] at h; dsimp only at h
                simp only [Option.some.injEq, Prod.mk.injEq] at h
                obtain ⟨-, h2⟩ := h
                subst h2
                refine runPoints_distance multi gs ps proportions (sortInt ks)
                  pN pE cN cE points
                  (popLocations.map (fun r => r.setCol "Distance" 0)) results _
                  ?_ hrun
                intro r hr
                obtain ⟨r0, hr0, rfl⟩ := List.mem_map.mp hr
                simp [setCol_col_self]

/-- Claim C7 witness: the amended statement at a concrete successful run. -/
theorem claim_C7_distance_column_witness :
    geocontext [⟨[("North", 0), ("East", 0)]⟩]
        [⟨[("North", 0), ("East", 0), ("P", 2), ("G", 1)]⟩]
        (.strList ["G"]) (.strList ["P"]) (.intList [1]) [true]
        "North" "East" "North" "East"
      = some ([[(RKey.radius none 1, RVal.q 0), (RKey.group "G" 1, RVal.q 1),
                (RKey.total none 1, RVal.q 2), (RKey.mean "G" 1, RVal.q (1 / 2))]],
              [⟨[("North", 0), ("East", 0), ("P", 2), ("G", 1), ("Distance", 0)]⟩]) ∧
    ∀ r ∈ [(⟨[("North", 0), ("East", 0), ("P", 2), ("G", 1), ("Distance", 0)]⟩ : Row)],
      (r.col "Distance").isSome := by
  have h : geocontext [⟨[("North", 0), ("East", 0)]⟩]
      [⟨[("North", 0), ("East", 0), ("P", 2), ("G", 1)]⟩]
      (.strList ["G"]) (.strList ["P"]) (.intList [1]) [true]
      "North" "East" "North" "East"
      = some ([[(RKey.radius none 1, RVal.q 0), (RKey.group "G" 1, RVal.q 1),
                (RKey.total none 1, RVal.q 2), (RKey.mean "G" 1, RVal.q (1 / 2))]],
              [⟨[("North", 0), ("East", 0), ("P", 2), ("G", 1), ("Distance", 0)]⟩]) := by
    all_goals try simp only [geocontext, validate, PyArg.isPyList, PyArg.pyLen, argStrNames, argIntVals,
      sortInt, insertInt, runPoints, pointStep, Row.col, Row.setCol, upsert, annotate,
      truncDist, isqrt, isqrtAux, sortRows, insertRow, rowDist, measuresLoop, lookupAll,
      solveFrom, walkFrom, iloc, perK, selectRows, aggGroups, groupStat, colSum,
      npAverage, weightedEntry, finishAll, finishRow, finishGroups, rkLookup, List.lookup,
      String.reduceEq, String.reduceBEq, List.filter, List.zipWith, List.zip,
      Option.map, Rat.floor, reduceCtorEq, RKey.radius.injEq, RKey.group.injEq,
      RKey.mean.injEq, RKey.std.injEq, RKey.total.injEq, Option.some.injEq]
    all_goals try norm_num
    all_goals try simp only [geocontext, validate, PyArg.isPyList, PyArg.pyLen, argStrNames, argIntVals,
      sortInt, insertInt, runPoints, pointStep, Row.col, Row.setCol, upsert, annotate,
      truncDist, isqrt, isqrtAux, sortRows, insertRow, rowDist, measuresLoop, lookupAll,
      solveFrom, walkFrom, iloc, perK, selectRows, aggGroups, groupStat, colSum,
      npAverage, weightedEntry, finishAll, finishRow, finishGroups, rkLookup, List.lookup,
      String.reduceEq, String.reduceBEq, List.filter, List.zipWith, List.zip,
      Option.map, Rat.floor, reduceCtorEq, RKey.radius.injEq, RKey.group.injEq,
      RKey.mean.injEq, RKey.std.injEq, RKey.total.injEq, Option.some.injEq]
    all_goals try norm_num
    all_goals try simp only [geocontext, validate, PyArg.isPyList, PyArg.pyLen, argStrNames, argIntVals,
      sortInt, insertInt, runPoints, pointStep, Row.col, Row.setCol, upsert, annotate,
      truncDist, isqrt, isqrtAux, sortRows, insertRow, rowDist, measuresLoop, lookupAll,
      solveFrom, walkFrom, iloc, perK, selectRows, aggGroups, groupStat, colSum,
      npAverage, weightedEntry, finishAll, finishRow, finishGroups, rkLookup, List.lookup,
      String.reduceEq, String.reduceBEq, List.filter, List.zipWith, List.zip,
      Option.map, Rat.floor, reduceCtorEq, RKey.radius.injEq, RKey.group.injEq,
      RKey.mean.injEq, RKey.std.injEq, RKey.total.injEq, Option.some.injEq]
    all_goals try norm_num
    all_goals try simp only [geocontext, validate, PyArg.isPyList, PyArg.pyLen, argStrNames, argIntVals,
      sortInt, insertInt, runPoints, pointStep, Row.col, Row.setCol, upsert, annotate,
      truncDist, isqrt, isqrtAux, sortRows, insertRow, rowDist, measuresLoop, lookupAll,
      solveFrom, walkFrom, iloc, perK, selectRows, aggGroups, groupStat, colSum,
      npAverage, weightedEntry, finishAll, finishRow, finishGroups, rkLookup, List.lookup,
      String.reduceEq, String.reduceBEq, List.filter, List.zipWith, List.zip,
      Option.map, Rat.floor, reduceCtorEq, RKey.radius.injEq, RKey.group.injEq,
      RKey.mean.injEq, RKey.std.injEq, RKey.total.injEq, Option.some.injEq]
    all_goals try norm_num
  exact ⟨h, claim_C7_distance_column_written _ _ _ _ _ _ _ _ _ _ _ _ h⟩

set_option maxHeartbeats 1600000 in
/-- Claim C8: when a requested k exceeds the total population of the
relevant measure's column over the entire reference set (populations
nonnegative, the column not named `Distance`), the run aborts — the
threshold walk's pointer reaches the end of the ordering and the
out-of-range `iloc` access raises, so `geocontext` produces no output
table at all (`none`), never a partial or degraded one.  (With no query
points the run also aborts, at `set_index` on the empty result frame.) -/
theorem claim_C8_insufficient_population_aborts
    (points popLocations : List Row) (groups : PyArg) (proportions : List Bool)
    (ps : List String) (ks : List Int) (p : String) (k : Int)
    (pN pE cN cE : String)
    (hp : p ∈ ps) (hpd : p ≠ "Distance") (hk : k ∈ ks)
    (hnn : ∀ r ∈ popLocations, 0 ≤ ((r.col p).getD 0))
    (hbig : (popLocations.map (fun r => (r.col p).getD 0)).sum < (k : ℚ)) :
    geocontext points popLocations groups (.strList ps) (.intList ks) proportions
      pN pE cN cE = none := by
  unfold geocontext
  cases hv : validate groups (.strList ps) (.intList ks) with
  | none => rfl
  | some multi =>
    dsimp only
    cases hg : argStrNames groups with
    | none => rfl
    | some gs =>
      dsimp only [argStrNames, argIntVals]
      cases points with
      | nil => rfl
      | cons pt pts =>
        have hst0nn : ∀ r ∈ popLocations.map (fun r => r.setCol "Distance" 0),
            0 ≤ ((r.col p).getD 0) := by
          intro r hr
          obtain ⟨r0, hr0, rfl⟩ := List.mem_map.mp hr
          rw [setCol_col_ne _ _ _ _ hpd]
          exact hnn r0 hr0
        have hbig0 : ((popLocations.map (fun r => r.setCol "Distance" 0)).map
            (fun r => (r.col p).getD 0)).sum < (k : ℚ) := by
          rw [map_setCol_col _ _ hpd]
          exact hbig
        have hks : k ∈ sortInt ks := (mem_sortInt ks k).mpr hk
        have hstep := pointStep_none multi gs ps proportions (sortInt ks) pN pE cN cE
          (popLocations.map (fun r => r.setCol "Distance" 0)) pt p k hks hp hpd
          hst0nn hbig0
        unfold runPoints
        rw [hstep]

/-- Claim C8 witness: a reference set with total population 2 under k = 5
aborts the whole run. -/
theorem claim_C8_insufficient_population_witness :
    geocontext [⟨[("North", 0), ("East", 0)]⟩]
      [⟨[("North", 0), ("East", 0), ("P", 2), ("G", 1)]⟩]
      (.strList ["G"]) (.strList ["P"]) (.intList [5]) [true]
      "North" "East" "North" "East" = none := by
  refine claim_C8_insufficient_population_aborts _ _ _ _ ["P"] [5] "P" 5
    "North" "East" "North" "East" (by simp) (by decide) (by simp) ?_ ?_
  · intro r hr
    simp only [List.mem_singleton] at hr
    subst hr
    simp only [Row.col, List.lookup, String.reduceBEq, Option.getD]
    norm_num
  · simp only [List.map, Row.col, List.lookup, String.reduceBEq, Option.getD,
      List.sum_cons, List.sum_nil]
    norm_num
